import Mathlib

/-!
Verification of the Koenote client-side upload-and-poll workflow
(`frontend/src/app/page.tsx`) against its specification.

The embedding models the component state of `KoenotoApp`, the browser timer
table (intervals created by `setInterval` and cleared by `clearInterval` or
by the `useEffect` cleanup on `pollingInterval`), and the network-dependent
functions `uploadChunks`, `createChunks`, `processAudio`, the interval
callback of `startPolling`, and `fetchRecordings`.  Network outcomes are
passed in as explicit parameters; the platform's `JSON.parse` is passed in
as a function parameter; console output is diagnostic only and is not
modelled.
-/

namespace Koenote

/-- JSON values as produced by the parsed bodies of `fetch(...).json()`.
Numbers are modelled as integers: every numeric field the client reads is an
integral HTTP status, count or percentage. -/
inductive Json where
  | null
  | bool (b : Bool)
  | num (n : Int)
  | str (s : String)
  | arr (elems : List Json)
  | obj (fields : List (String × Json))

/-- Field lookup on a JSON object, i.e. `j.k` in JavaScript.  Missing fields
and lookups on non-objects give `none` (JavaScript `undefined`). -/
def jget : Json → String → Option Json
  | .obj fields, k => fields.lookup k
  | _, _ => none

/-- JavaScript truthiness of a JSON value. -/
def jsTruthy : Json → Bool
  | .null => false
  | .bool b => b
  | .num n => n != 0
  | .str s => s != ""
  | .arr _ => true
  | .obj _ => true

/-- Rendering of a JSON value into a string state variable, as a template
literal or a string-typed `useState` setter observes it. -/
def jsDisplay : Json → String
  | .null => "null"
  | .bool b => if b then "true" else "false"
  | .num n => toString n
  | .str s => s
  | .arr _ => ""
  | .obj _ => "[object Object]"

/-- The pattern `j.k || d`: the field's value (rendered as a string) when
present and truthy, the default `d` otherwise. -/
def jsOr (j : Json) (k : String) (d : String) : String :=
  match jget j k with
  | some v => if jsTruthy v then jsDisplay v else d
  | none => d

/-- The pattern `j.k || []` for the keyword list.  Arrays are always truthy
in JavaScript, so a present array (even an empty one) is used as-is and
anything else falls back to `[]`; the backend sends keyword arrays of
strings. -/
def arrStrField (j : Json) (k : String) : List String :=
  match jget j k with
  | some (.arr xs) => xs.map jsDisplay
  | _ => []

/-- Field access `j.status === v` (strict string comparison). -/
def statusIs (data : Json) (v : String) : Bool :=
  match jget data "status" with
  | some (.str t) => t == v
  | _ => false

/-- An audio blob: only the properties the client reads (`size` in bytes and
the declared MIME `type`). -/
structure Blob where
  size : Nat
  type : String
deriving DecidableEq, Repr

/-- Uploader: `createChunks` (page.tsx lines 352-377).  `MAX_CHUNK_SIZE` is
`0.1 * 1024 * 1024` = 104857.6 bytes, so a natural-number size is at most the
threshold exactly when `10 * size ≤ 1048576`.  Both branches return the
original blob unchanged: the large-file branch only computes values for
console logging and explicitly defers splitting to the backend. -/
def createChunks (audioBlob : Blob) : List Blob :=
  if 10 * audioBlob.size ≤ 1048576 then
    [audioBlob]
  else
    [audioBlob]

/-- The fields of the presigned-URL response body that `uploadChunks` reads.
`none` models an absent field, `some ""` a present-but-empty (falsy) one. -/
structure PresignData where
  presignedUrl : Option String
  key : Option String
  audioUrl : Option String
deriving DecidableEq, Repr

/-- Truthiness of an optional string field. -/
def optTruthy : Option String → Bool
  | some s => s != ""
  | none => false

/-- The JavaScript idiom `url.split('/').pop()`: the trailing path segment,
i.e. the characters after the last `/` (the whole string when there is no
`/`, empty when the string ends in `/`). -/
def lastSeg (u : String) : String :=
  String.mk ((u.data.reverse.takeWhile (fun c => c != '/')).reverse)

/-- Key extraction of `uploadChunks` (page.tsx lines 316-320): the `key`
field of the presign response, or, when that is falsy and `audioUrl` is
truthy, the trailing path segment of `audioUrl`. -/
def deriveKey (d : PresignData) : Option String :=
  if !(optTruthy d.key) && optTruthy d.audioUrl then
    some (lastSeg (d.audioUrl.getD ""))
  else
    d.key

/-- Outcome of the presign POST for one chunk: a rejected fetch or an
unparsable body, a response with `res.ok` false, or a success with a parsed
body. -/
inductive PresignResp where
  | jsError (msg : String)
  | httpNotOk (status : Nat)
  | ok (data : PresignData)
deriving DecidableEq, Repr

/-- Outcome of the PUT of one chunk to object storage. -/
inductive PutResp where
  | jsError (msg : String)
  | resp (ok : Bool) (status : Nat)
deriving DecidableEq, Repr

/-- Per-chunk network environment for one run of `uploadChunks`: the outcome
of the presign request and of the storage PUT for each chunk index. -/
structure UploadEnv where
  presign : Nat → PresignResp
  put : Nat → PutResp

/-- Errors thrown by `uploadChunks`, each carrying the data interpolated into
the thrown message. -/
inductive UploadErr where
  | presignRequest (status : Nat)
  | presignResponse
  | chunkUpload (i : Nat) (status : Nat)
  | jsErr (msg : String)
deriving DecidableEq, Repr

/-- The exact message of each error thrown by `uploadChunks`. -/
def UploadErr.message : UploadErr → String
  | .presignRequest st => "プリサインドURLの取得に失敗しました: " ++ toString st
  | .presignResponse => "プリサインドURLまたはキーが取得できませんでした"
  | .chunkUpload i st =>
      "チャンク " ++ toString (i + 1) ++ " のアップロードに失敗しました: " ++ toString st
  | .jsErr m => m

/-- Network requests issued by `uploadChunks`, recorded in order of issue. -/
inductive UploadEv where
  | presign (i : Nat)
  | put (i : Nat)
deriving DecidableEq, Repr

/-- The chunk index a request belongs to. -/
def UploadEv.idx : UploadEv → Nat
  | .presign i => i
  | .put i => i

/-- Whether a request is a storage PUT. -/
def UploadEv.isPut : UploadEv → Bool
  | .presign _ => false
  | .put _ => true

/-- The loop body of `uploadChunks` (page.tsx lines 283-347) over the
remaining chunks, starting at chunk index `i`: request a presigned URL, check
`res.ok`, extract the URL and the key, PUT the chunk, collect the key.  Any
failure throws (the inner catch only logs and rethrows).  Returns the trace
of requests issued, in order, and either the collected keys (in input order)
or the first error thrown. -/
def uploadFrom (env : UploadEnv) :
    List Blob → Nat → List UploadEv × Except UploadErr (List String)
  | [], _ => ([], .ok [])
  | _chunk :: rest, i =>
    match env.presign i with
    | .jsError m => ([.presign i], .error (.jsErr m))
    | .httpNotOk st => ([.presign i], .error (.presignRequest st))
    | .ok d =>
      if optTruthy d.presignedUrl && optTruthy (deriveKey d) then
        match env.put i with
        | .jsError m => ([.presign i, .put i], .error (.jsErr m))
        | .resp ok st =>
          if ok then
            let r := uploadFrom env rest (i + 1)
            (.presign i :: .put i :: r.1, r.2.map ((deriveKey d).getD "" :: ·))
          else
            ([.presign i, .put i], .error (.chunkUpload i st))
      else
        ([.presign i], .error .presignResponse)

/-- Uploader: `uploadChunks` (page.tsx lines 280-350). -/
def uploadChunks (env : UploadEnv) (chunks : List Blob) :
    List UploadEv × Except UploadErr (List String) :=
  uploadFrom env chunks 0

/-- The key `uploadChunks` records for chunk `i` when its presign request
succeeds. -/
def keyOf (env : UploadEnv) (i : Nat) : String :=
  match env.presign i with
  | .ok d => (deriveKey d).getD ""
  | _ => ""

/-- The request trace of a fully successful run over `n` chunks starting at
index `i`: presign then PUT for each chunk, strictly in index order. -/
def okTrace (i n : Nat) : List UploadEv :=
  match n with
  | 0 => []
  | n + 1 => .presign i :: .put i :: okTrace (i + 1) n

/-- The keys collected by a fully successful run over `n` chunks starting at
index `i`. -/
def okKeys (env : UploadEnv) (i n : Nat) : List String :=
  match n with
  | 0 => []
  | n + 1 => keyOf env i :: okKeys env (i + 1) n

/-- The presign response for chunk `i` is a success whose body carries a
truthy presigned URL and a truthy derivable key. -/
def presignOk (env : UploadEnv) (i : Nat) : Prop :=
  ∃ d, env.presign i = .ok d ∧
    optTruthy d.presignedUrl = true ∧ optTruthy (deriveKey d) = true

/-- The storage PUT for chunk `i` succeeds. -/
def putOk (env : UploadEnv) (i : Nat) : Prop :=
  ∃ st, env.put i = .resp true st

/-- Recording metadata as the client stores it. -/
structure Recording where
  id : String
  title : String
  date : String
  start_time : String
  duration : String
  transcript : Option String := none
  summary : Option String := none
  keywords : Option (List String) := none
  user_id : Option String := none
  audioUrl : Option String := none
  audioChunksUrls : Option (List String) := none
deriving DecidableEq, Repr

/-- Externally visible follow-up actions a handler triggers besides its own
state updates.  The only one the claims are about is the recordings
re-fetch. -/
inductive Effect where
  | fetchRecordings
deriving DecidableEq, Repr

/-- The component state of `KoenotoApp` touched by the core workflow, plus a
model of the browser timer table: `liveTimers` lists the intervals created by
`setInterval` and not yet cleared, each with the execution ARN its tick
callback closed over, and `nextTimer` supplies fresh interval handles. -/
structure AppState where
  status : String
  processingStatus : Option String
  recordings : List Recording
  title : String
  transcript : String
  summary : String
  keywords : List String
  executionArn : Option String
  pollingInterval : Option Nat
  liveTimers : List (Nat × String)
  nextTimer : Nat
  isEditingBeforeSave : Bool
  selectedRecording : Option Recording
  showAudioPlayer : Bool
  audioChunks : List String
  currentChunkIndex : Nat
  uploadedAudioUrl : String
  recordingDuration : String
  errorMessage : Option String
deriving DecidableEq, Repr

/-- The initial values of the component's `useState` hooks, with an empty
timer table. -/
def initState : AppState where
  status := ""
  processingStatus := none
  recordings := []
  title := ""
  transcript := ""
  summary := ""
  keywords := []
  executionArn := none
  pollingInterval := none
  liveTimers := []
  nextTimer := 0
  isEditingBeforeSave := false
  selectedRecording := none
  showAudioPlayer := false
  audioChunks := []
  currentChunkIndex := 0
  uploadedAudioUrl := ""
  recordingDuration := "0:00"
  errorMessage := none

/-- A `clearInterval id` call: the timer stops and its callback never fires
again. -/
def clearIntervalM (id : Nat) (s : AppState) : AppState :=
  { s with liveTimers := s.liveTimers.filter (fun p => p.1 != id) }

/-- A `setPollingInterval v` call together with the cleanup effect
`useEffect` registers on `pollingInterval` (page.tsx lines 801-807): when the
stored handle changes, the cleanup of the previous effect run clears the
previously stored interval.  Storing the current value again re-runs
nothing. -/
def setPollingIntervalM (v : Option Nat) (s : AppState) : AppState :=
  if v = s.pollingInterval then s
  else
    { s with
      pollingInterval := v
      liveTimers :=
        match s.pollingInterval with
        | some j => s.liveTimers.filter (fun p => p.1 != j)
        | none => s.liveTimers }

/-- The function `resetState` (page.tsx lines 526-541), run at the start of
every new recording session and after a delete.  It clears `executionArn`
but touches neither `pollingInterval` nor any live timer. -/
def resetState (s : AppState) : AppState :=
  { s with
    selectedRecording := none
    title := ""
    transcript := ""
    summary := ""
    keywords := []
    showAudioPlayer := false
    isEditingBeforeSave := false
    audioChunks := []
    currentChunkIndex := 0
    uploadedAudioUrl := ""
    recordingDuration := "0:00"
    errorMessage := none
    processingStatus := none
    executionArn := none }

/-- The function `startPolling` (page.tsx lines 724-798): create a 3-second
interval whose callback polls the given execution ARN, then store its handle
with `setPollingInterval` — which, via the cleanup effect, clears any
previously stored interval. -/
def startPolling (arn : String) (s : AppState) : AppState :=
  let id := s.nextTimer
  setPollingIntervalM (some id)
    { s with liveTimers := s.liveTimers ++ [(id, arn)], nextTimer := id + 1 }

/-- The value of `NEXT_PUBLIC_AUDIO_BUCKET_NAME` (environment-supplied; its
value is irrelevant to every property proved here). -/
def AUDIO_BUCKET_NAME : String := "audio-bucket"

/-- The public storage URL derived from a chunk key, i.e.
`https://` + bucket + `.s3.amazonaws.com/` + key. -/
def chunkUrl (key : String) : String :=
  "https://" ++ AUDIO_BUCKET_NAME ++ ".s3.amazonaws.com/" ++ key

/-- Outcome of one status fetch of the polling callback.  The callback never
checks `res.ok`, so a served response is just its parsed JSON body; `fail` is
a rejected fetch or a body that fails to parse, caught at page.tsx lines
789-793. -/
inductive PollResp where
  | fail
  | ok (data : Json)

/-- The catch handler of the polling callback (page.tsx lines 789-793): set
the generic failure message and clear the progress label.  State updates
already issued before a throw remain applied. -/
def tickCatch (s : AppState) : AppState × List Effect :=
  ({ s with status := "ステータスの取得に失敗しました", processingStatus := none }, [])

/-- The audio-chunk handling of the completed branch (page.tsx lines
758-765). -/
def applyAudioChunks (rd1 : Json) (s : AppState) : AppState :=
  match jget rd1 "audioChunks" with
  | some (.arr ks) =>
    if ks.length > 0 then
      { s with
        audioChunks := ks.map (fun k => chunkUrl (jsDisplay k))
        currentChunkIndex := 0
        showAudioPlayer := true }
    else s
  | _ => s

/-- The audio handling of the completed branch (page.tsx lines 754-765):
prefer a single `audioUrl`, else fall back to `audioChunks`. -/
def applyAudio (rd1 : Json) (s : AppState) : AppState :=
  match jget rd1 "audioUrl" with
  | some v =>
    if jsTruthy v then
      { s with uploadedAudioUrl := jsDisplay v, showAudioPlayer := true }
    else applyAudioChunks rd1 s
  | none => applyAudioChunks rd1 s

/-- One firing of the interval callback created by `startPolling` (page.tsx
lines 725-794) for timer `id` polling `arn`, on status-fetch outcome `resp`.
The `parse` parameter models the platform's `JSON.parse` (`none` models a
parse exception).  A cleared timer's callback never fires: if `id` is not
live, the state is returned unchanged with no effects.  In the completed
branch, dereferencing `.title` on a missing or null result payload throws,
landing in the catch handler after polling was already stopped. -/
def pollTick (parse : String → Option Json) (id : Nat) (arn : String)
    (resp : PollResp) (s : AppState) : AppState × List Effect :=
  if (id, arn) ∈ s.liveTimers then
    match resp with
    | .fail => tickCatch s
    | .ok data =>
      if statusIs data "completed" then
        let s1 :=
          { setPollingIntervalM none (clearIntervalM id s) with executionArn := none }
        match jget data "result" with
        | none => tickCatch s1
        | some rd =>
          let rd1 :=
            if jsTruthy rd then
              match jget rd "result" with
              | some (.str nested) => (parse nested).getD rd
              | _ => rd
            else rd
          match rd1 with
          | .null => tickCatch s1
          | _ =>
            let s2 :=
              { s1 with
                title := jsOr rd1 "title" "無題"
                transcript := jsOr rd1 "transcript" ""
                summary := jsOr rd1 "summary" ""
                keywords := arrStrField rd1 "keywords" }
            let s3 := applyAudio rd1 s2
            ({ s3 with
                status := "処理完了"
                processingStatus := none
                isEditingBeforeSave := true }, [.fetchRecordings])
      else if statusIs data "failed" then
        let s1 :=
          { setPollingIntervalM none (clearIntervalM id s) with executionArn := none }
        ({ s1 with
            status := "処理に失敗しました: " ++ jsOr data "error" "不明なエラー"
            processingStatus := none }, [])
      else
        let s1 := { s with processingStatus := some (jsOr data "message" "処理中...") }
        match jget data "percentComplete" with
        | some v =>
          if jsTruthy v then
            ({ s1 with
                processingStatus := some ("処理中... (" ++ jsDisplay v ++ "%)") }, [])
          else (s1, [])
        | none => (s1, [])
  else (s, [])

/-- Outcome of the process-audio POST (page.tsx lines 412-420): a rejected
fetch or unparsable body, a non-success response with a parsed JSON error
body, or a success with a parsed body. -/
inductive ProcessResp where
  | jsError (msg : String)
  | httpNotOk (status : Nat) (body : Json)
  | ok (body : Json)

/-- The catch handler of `processAudio` (page.tsx lines 464-469). -/
def processCatch (msg : String) (s : AppState) : AppState :=
  { s with status := "音声処理に失敗しました: " ++ msg, processingStatus := none }

/-- The synchronous branch and the unexpected-shape fallthrough of
`processAudio` (page.tsx lines 439-463): a truthy `title` field selects the
immediate-results path, anything else throws the unexpected-shape error. -/
def syncOrFail (body : Json) (s1 : AppState) :
    AppState × List Effect × Except String (Option Json) :=
  match jget body "title" with
  | some v =>
    if jsTruthy v then
      let s2 :=
        { s1 with
          title := jsOr body "title" "無題"
          transcript := jsOr body "transcript" ""
          summary := jsOr body "summary" ""
          keywords := arrStrField body "keywords"
          status := "処理完了"
          processingStatus := none }
      let s3 :=
        match jget body "audioUrl" with
        | some u =>
          if jsTruthy u then
            { s2 with uploadedAudioUrl := jsDisplay u, showAudioPlayer := true }
          else s2
        | none => s2
      ({ s3 with isEditingBeforeSave := true }, [.fetchRecordings], .ok (some body))
    else
      (processCatch "予期しないレスポンス形式です" s1, [], .error "予期しないレスポンス形式です")
  | none =>
    (processCatch "予期しないレスポンス形式です" s1, [], .error "予期しないレスポンス形式です")

/-- The function `processAudio` (page.tsx lines 379-470): chunk the blob,
upload the chunks, POST the collected keys to the process-audio endpoint and
dispatch on the response shape.  Returns the new state, the follow-up
effects, and the function's own outcome: the thrown error's message, or on
success `none` for the asynchronous path (results arrive via polling) or the
response body for the synchronous path. -/
def processAudio (env : UploadEnv) (resp : ProcessResp) (audioBlob : Blob)
    (s : AppState) : AppState × List Effect × Except String (Option Json) :=
  let s0 := { s with status := "音声処理中..." }
  let chunks := createChunks audioBlob
  match (uploadChunks env chunks).2 with
  | .error e => (processCatch e.message s0, [], .error e.message)
  | .ok chunkKeys =>
    if chunkKeys.length = 0 then
      (processCatch "音声ファイルのアップロードに失敗しました" s0, [],
        .error "音声ファイルのアップロードに失敗しました")
    else
      let s1 :=
        { s0 with
          audioChunks := chunkKeys.map chunkUrl
          currentChunkIndex := 0
          showAudioPlayer := true
          status := "音声処理開始中..."
          processingStatus := some "処理を開始しています..." }
      match resp with
      | .jsError m => (processCatch m s1, [], .error m)
      | .httpNotOk st body =>
        let m := "HTTP error! status: " ++ toString st ++ ", message: "
                   ++ jsOr body "error" "Unknown error"
        (processCatch m s1, [], .error m)
      | .ok body =>
        match jget body "executionArn" with
        | some (.str a) =>
          if a != "" then
            let s2 := startPolling a { s1 with executionArn := some a }
            ({ s2 with status := "", processingStatus := some "音声処理中..." },
              [], .ok none)
          else syncOrFail body s1
        | _ => syncOrFail body s1

/-- Outcome of the recordings-list GET. -/
inductive ListResp where
  | jsError (msg : String)
  | httpNotOk (status : Nat)
  | ok (items : List Recording)

/-- The sort of the fetched list (page.tsx lines 247-251): descending by the
platform's parse of the combined date and start time, abstracted here as the
key function `time`. -/
def sortRecordings (time : Recording → Int) (items : List Recording) :
    List Recording :=
  items.mergeSort (fun a b => decide (time b ≤ time a))

/-- The function `fetchRecordings` (page.tsx lines 239-259).  On a
non-success status the thrown message lands in the catch handler; on any
caught error only `status` is set and `recordings` is untouched. -/
def fetchRecordings (time : Recording → Int) (resp : ListResp) (s : AppState) :
    AppState :=
  match resp with
  | .jsError m => { s with status := "一覧取得に失敗: " ++ m }
  | .httpNotOk st =>
    { s with
      status := "一覧取得に失敗: 一覧取得に失敗しました (status: " ++ toString st ++ ")" }
  | .ok items => { s with recordings := sortRecordings time items, status := "" }

/-! Concrete instances used by counterexamples and witnesses. -/

/-- A state in which a poll for execution `arn` has just started, as at the
end of the asynchronous branch of `processAudio` on the initial state. -/
def pollingOn (arn : String) : AppState :=
  startPolling arn { initState with executionArn := some arn }

/-- A small recorded blob. -/
def blob0 : Blob := ⟨1000, "audio/webm"⟩

/-- A fully usable presign response body. -/
def goodPresign : PresignData :=
  ⟨some "https://bucket.s3.amazonaws.com/put-here", some "chunk_0.webm", none⟩

/-- An environment in which every presign request and every PUT succeeds. -/
def envAllOk : UploadEnv where
  presign := fun _ => .ok goodPresign
  put := fun _ => .resp true 200

/-- An environment in which the presign request for chunk 1 fails with
status 500 and everything else succeeds. -/
def envFailAt1 : UploadEnv where
  presign := fun i => if i = 1 then .httpNotOk 500 else .ok goodPresign
  put := fun _ => .resp true 200

/-- An environment whose presign response carries a presigned URL but
neither a key nor an audio URL. -/
def envUrlOnly : UploadEnv where
  presign := fun _ => .ok ⟨some "https://bucket.s3.amazonaws.com/put-here", none, none⟩
  put := fun _ => .resp true 200

/-- A presign response body with no key but with an audio URL from which the
key is derivable. -/
def audioUrlData : PresignData :=
  ⟨some "https://bucket.s3.amazonaws.com/put-here", none,
   some "https://bucket.s3.amazonaws.com/rec_0.webm"⟩

/-- An environment whose presign response has no key but carries an audio
URL from which the key is derivable. -/
def envAudioUrl : UploadEnv where
  presign := fun _ => .ok audioUrlData
  put := fun _ => .resp true 200

/-- A status response reporting progress. -/
def runningData : Json :=
  .obj [("status", .str "running"), ("message", .str "文字起こし中")]

/-- A status response reporting failure, with no error message supplied. -/
def failedData : Json :=
  .obj [("status", .str "failed")]

/-- A completed status response whose result envelope carries the payload as
a nested string under its own `result` field, and whose envelope carries
none of the result fields itself. -/
def completedNested : Json :=
  .obj [("status", .str "completed"),
        ("result", .obj [("result", .str "PAYLOAD")])]

/-- The decoded nested payload of `completedNested`. -/
def nestedPayload : Json :=
  .obj [("title", .str "会議メモ"), ("transcript", .str "本文です"),
        ("summary", .str "要約です"), ("keywords", .arr [.str "会議"])]

/-- A model of `JSON.parse` that decodes exactly the nested string of
`completedNested`. -/
def parseEnv : String → Option Json :=
  fun s => if s = "PAYLOAD" then some nestedPayload else none

/-- A model of `JSON.parse` that throws on every input. -/
def parseNone : String → Option Json := fun _ => none

/-- A process-audio response carrying an execution ARN. -/
def arnBody : Json := .obj [("executionArn", .str "arn:states:exec-42")]

/-! Helper lemmas about the timer model. -/

@[simp] theorem clearIntervalM_recordings (id : Nat) (s : AppState) :
    (clearIntervalM id s).recordings = s.recordings := rfl

@[simp] theorem clearIntervalM_pollingInterval (id : Nat) (s : AppState) :
    (clearIntervalM id s).pollingInterval = s.pollingInterval := rfl

@[simp] theorem clearIntervalM_title (id : Nat) (s : AppState) :
    (clearIntervalM id s).title = s.title := rfl

@[simp] theorem clearIntervalM_isEditingBeforeSave (id : Nat) (s : AppState) :
    (clearIntervalM id s).isEditingBeforeSave = s.isEditingBeforeSave := rfl

@[simp] theorem setPollingIntervalM_recordings (v : Option Nat) (s : AppState) :
    (setPollingIntervalM v s).recordings = s.recordings := by
  unfold setPollingIntervalM; split <;> rfl

@[simp] theorem setPollingIntervalM_title (v : Option Nat) (s : AppState) :
    (setPollingIntervalM v s).title = s.title := by
  unfold setPollingIntervalM; split <;> rfl

@[simp] theorem setPollingIntervalM_isEditingBeforeSave (v : Option Nat) (s : AppState) :
    (setPollingIntervalM v s).isEditingBeforeSave = s.isEditingBeforeSave := by
  unfold setPollingIntervalM; split <;> rfl

@[simp] theorem setPollingIntervalM_executionArn (v : Option Nat) (s : AppState) :
    (setPollingIntervalM v s).executionArn = s.executionArn := by
  unfold setPollingIntervalM; split <;> rfl

@[simp] theorem setPollingIntervalM_none_pollingInterval (s : AppState) :
    (setPollingIntervalM none s).pollingInterval = none := by
  unfold setPollingIntervalM
  split
  · next h => exact h.symm
  · rfl

theorem setPollingIntervalM_liveTimers_subset (v : Option Nat) (s : AppState)
    (p : Nat × String) (h : p ∈ (setPollingIntervalM v s).liveTimers) :
    p ∈ s.liveTimers := by
  unfold setPollingIntervalM at h
  split at h
  · exact h
  · simp only at h
    split at h
    · exact (List.mem_filter.mp h).1
    · exact h

/-- After `clearInterval id` followed by storing a new handle value, timer
`id` is no longer live. -/
theorem not_mem_after_clear (v : Option Nat) (s : AppState) (id : Nat) (a : String) :
    (id, a) ∉ (setPollingIntervalM v (clearIntervalM id s)).liveTimers := by
  intro h
  have h2 := setPollingIntervalM_liveTimers_subset v (clearIntervalM id s) (id, a) h
  unfold clearIntervalM at h2
  simp only at h2
  have := (List.mem_filter.mp h2).2
  simp at this

/-! Helper lemmas about the audio handling of the completed branch: it only
touches the audio-player fields. -/

@[simp] theorem applyAudioChunks_title (rd1 : Json) (s : AppState) :
    (applyAudioChunks rd1 s).title = s.title := by
  unfold applyAudioChunks; split
  · split <;> rfl
  · rfl

@[simp] theorem applyAudioChunks_transcript (rd1 : Json) (s : AppState) :
    (applyAudioChunks rd1 s).transcript = s.transcript := by
  unfold applyAudioChunks; split
  · split <;> rfl
  · rfl

@[simp] theorem applyAudioChunks_summary (rd1 : Json) (s : AppState) :
    (applyAudioChunks rd1 s).summary = s.summary := by
  unfold applyAudioChunks; split
  · split <;> rfl
  · rfl

@[simp] theorem applyAudioChunks_keywords (rd1 : Json) (s : AppState) :
    (applyAudioChunks rd1 s).keywords = s.keywords := by
  unfold applyAudioChunks; split
  · split <;> rfl
  · rfl

@[simp] theorem applyAudioChunks_recordings (rd1 : Json) (s : AppState) :
    (applyAudioChunks rd1 s).recordings = s.recordings := by
  unfold applyAudioChunks; split
  · split <;> rfl
  · rfl

@[simp] theorem applyAudioChunks_pollingInterval (rd1 : Json) (s : AppState) :
    (applyAudioChunks rd1 s).pollingInterval = s.pollingInterval := by
  unfold applyAudioChunks; split
  · split <;> rfl
  · rfl

@[simp] theorem applyAudioChunks_liveTimers (rd1 : Json) (s : AppState) :
    (applyAudioChunks rd1 s).liveTimers = s.liveTimers := by
  unfold applyAudioChunks; split
  · split <;> rfl
  · rfl

@[simp] theorem applyAudioChunks_executionArn (rd1 : Json) (s : AppState) :
    (applyAudioChunks rd1 s).executionArn = s.executionArn := by
  unfold applyAudioChunks; split
  · split <;> rfl
  · rfl

@[simp] theorem applyAudio_title (rd1 : Json) (s : AppState) :
    (applyAudio rd1 s).title = s.title := by
  unfold applyAudio; split
  · split <;> simp
  · simp

@[simp] theorem applyAudio_transcript (rd1 : Json) (s : AppState) :
    (applyAudio rd1 s).transcript = s.transcript := by
  unfold applyAudio; split
  · split <;> simp
  · simp

@[simp] theorem applyAudio_summary (rd1 : Json) (s : AppState) :
    (applyAudio rd1 s).summary = s.summary := by
  unfold applyAudio; split
  · split <;> simp
  · simp

@[simp] theorem applyAudio_keywords (rd1 : Json) (s : AppState) :
    (applyAudio rd1 s).keywords = s.keywords := by
  unfold applyAudio; split
  · split <;> simp
  · simp

@[simp] theorem applyAudio_recordings (rd1 : Json) (s : AppState) :
    (applyAudio rd1 s).recordings = s.recordings := by
  unfold applyAudio; split
  · split <;> simp
  · simp

@[simp] theorem applyAudio_pollingInterval (rd1 : Json) (s : AppState) :
    (applyAudio rd1 s).pollingInterval = s.pollingInterval := by
  unfold applyAudio; split
  · split <;> simp
  · simp

@[simp] theorem applyAudio_liveTimers (rd1 : Json) (s : AppState) :
    (applyAudio rd1 s).liveTimers = s.liveTimers := by
  unfold applyAudio; split
  · split <;> simp
  · simp

@[simp] theorem applyAudio_executionArn (rd1 : Json) (s : AppState) :
    (applyAudio rd1 s).executionArn = s.executionArn := by
  unfold applyAudio; split
  · split <;> simp
  · simp

/-! Helper lemmas about the upload trace. -/

/-- Position of a request in the strict issue order: presign before PUT for
the same chunk, lower chunk indices entirely before higher ones. -/
def evRank (e : UploadEv) : Nat :=
  2 * e.idx + (if e.isPut then 1 else 0)

@[simp] theorem evRank_presign (i : Nat) : evRank (.presign i) = 2 * i := rfl

@[simp] theorem evRank_put (i : Nat) : evRank (.put i) = 2 * i + 1 := rfl

theorem okTrace_rank_lb (i n : Nat) :
    ∀ e ∈ okTrace i n, 2 * i ≤ evRank e := by
  induction n generalizing i with
  | zero => intro e he; simp [okTrace] at he
  | succ n ih =>
    intro e he
    simp only [okTrace, List.mem_cons] at he
    rcases he with rfl | rfl | he
    · simp
    · simp
    · have := ih (i + 1) e he
      omega

theorem okTrace_idx_lt (i n : Nat) :
    ∀ e ∈ okTrace i n, e.idx < i + n := by
  induction n generalizing i with
  | zero => intro e he; simp [okTrace] at he
  | succ n ih =>
    intro e he
    have hrank := okTrace_rank_lb i (n + 1) e he
    simp only [okTrace, List.mem_cons] at he
    rcases he with rfl | rfl | he
    · simp only [UploadEv.idx]; omega
    · simp only [UploadEv.idx]; omega
    · have := ih (i + 1) e he
      omega

/-- The successful trace is strictly ordered: every request is issued after
the previous one resolved, chunk by chunk, presign before PUT. -/
theorem okTrace_chain (i n : Nat) :
    (okTrace i n).Pairwise (fun a b => evRank a < evRank b) := by
  induction n generalizing i with
  | zero => exact List.Pairwise.nil
  | succ n ih =>
    refine List.Pairwise.cons ?_ (List.Pairwise.cons ?_ (ih (i + 1)))
    · intro e he
      simp only [List.mem_cons] at he
      rcases he with rfl | he
      · simp
      · have := okTrace_rank_lb (i + 1) n e he
        simp only [evRank_presign]
        omega
    · intro e he
      have := okTrace_rank_lb (i + 1) n e he
      simp only [evRank_put]
      omega

theorem okTrace_nodup (i n : Nat) : (okTrace i n).Nodup :=
  (okTrace_chain i n).imp fun h => by
    intro he; subst he; omega

theorem okTrace_put_mem (i n j : Nat) (h1 : i ≤ j) (h2 : j < i + n) :
    UploadEv.put j ∈ okTrace i n := by
  induction n generalizing i with
  | zero => exact absurd h2 (by omega)
  | succ n ih =>
    simp only [okTrace, List.mem_cons]
    rcases Nat.eq_or_lt_of_le h1 with rfl | hlt
    · exact Or.inr (Or.inl rfl)
    · exact Or.inr (Or.inr (ih (i + 1) hlt (by omega)))

theorem okTrace_filter_isPut (i n : Nat) :
    ((okTrace i n).filter UploadEv.isPut).length = n := by
  induction n generalizing i with
  | zero => rfl
  | succ n ih =>
    simp [okTrace, List.filter, UploadEv.isPut, ih]

theorem okKeys_length (env : UploadEnv) (i n : Nat) :
    (okKeys env i n).length = n := by
  induction n generalizing i with
  | zero => rfl
  | succ n ih => simp [okKeys, ih]

theorem okKeys_get (env : UploadEnv) (i n j : Nat) (h : j < n) :
    (okKeys env i n)[j]? = some (keyOf env (i + j)) := by
  induction n generalizing i j with
  | zero => exact absurd h (by omega)
  | succ n ih =>
    cases j with
    | zero => simp [okKeys]
    | succ j =>
      have hih := ih (i + 1) j (by omega)
      simp only [okKeys, List.getElem?_cons_succ]
      rw [hih]
      congr 2
      omega

/-- One-step equation of the upload loop on a chunk whose presign and PUT
both succeed. -/
theorem uploadFrom_cons_ok (env : UploadEnv) (c : Blob) (rest : List Blob)
    (i : Nat) (d : PresignData) (st : Nat)
    (hd : env.presign i = .ok d)
    (hurl : optTruthy d.presignedUrl = true)
    (hkey : optTruthy (deriveKey d) = true)
    (hput : env.put i = .resp true st) :
    uploadFrom env (c :: rest) i =
      (.presign i :: .put i :: (uploadFrom env rest (i + 1)).1,
        (uploadFrom env rest (i + 1)).2.map ((deriveKey d).getD "" :: ·)) := by
  simp [uploadFrom, hd, hurl, hkey, hput]

/-- Splitting lemma for the upload loop: over a prefix of `k` chunks whose
presign and PUT both succeed, the loop issues the successful trace and
collects the keys of those chunks, then continues with the remaining
chunks. -/
theorem uploadFrom_split (env : UploadEnv) :
    ∀ (k : Nat) (chunks : List Blob) (i : Nat), k ≤ chunks.length →
    (∀ j, j < k → presignOk env (i + j) ∧ putOk env (i + j)) →
    uploadFrom env chunks i =
      (okTrace i k ++ (uploadFrom env (chunks.drop k) (i + k)).1,
        match (uploadFrom env (chunks.drop k) (i + k)).2 with
        | .ok ks => .ok (okKeys env i k ++ ks)
        | .error e => .error e) := by
  intro k
  induction k with
  | zero =>
    intro chunks i _ _
    rcases hu : uploadFrom env chunks i with ⟨tr, r⟩
    simp only [List.drop_zero, Nat.add_zero, hu]
    cases r <;> simp [okTrace, okKeys]
  | succ k ih =>
    intro chunks i hk hgood
    match chunks with
    | [] => simp at hk
    | c :: rest =>
      obtain ⟨⟨d, hd, hurl, hkey⟩, ⟨st, hput⟩⟩ := hgood 0 (Nat.succ_pos k)
      rw [Nat.add_zero] at hd hput
      have hgood2 : ∀ j, j < k → presignOk env (i + 1 + j) ∧ putOk env (i + 1 + j) := by
        intro j hj
        have := hgood (j + 1) (by omega)
        rwa [show i + (j + 1) = i + 1 + j by omega] at this
      have hrec := ih rest (i + 1) (by simpa using hk) hgood2
      have harith : i + 1 + k = i + (k + 1) := by omega
      rw [harith] at hrec
      rw [uploadFrom_cons_ok env c rest i d st hd hurl hkey hput, hrec]
      simp only [List.drop_succ_cons]
      rcases hr : (uploadFrom env (rest.drop k) (i + (k + 1))).2 with e | ks <;>
        simp [okTrace, okKeys, Except.map, keyOf, hd, hr]

/-- Helper: both branches of `createChunks` return the input unchanged. -/
theorem createChunks_eq (b : Blob) : createChunks b = [b] := by
  unfold createChunks
  split <;> rfl

/-- Helper: a fetch-error tick never changes the timer table, live or not. -/
theorem pollTick_fail_liveTimers (parse : String → Option Json) (id : Nat)
    (arn : String) (s : AppState) :
    (pollTick parse id arn .fail s).1.liveTimers = s.liveTimers := by
  unfold pollTick
  split <;> rfl

/-! The claims. -/

/-- C9: for every input audio blob, the Chunker returns a single-element
sequence containing exactly the original blob — directly when the size is at
or under the fixed threshold (104857.6 bytes, compared here as
`10 * size ≤ 1048576`), and also when the size exceeds it, since splitting
is deferred to the backend. -/
theorem createChunks_returns_input (b : Blob) :
    (10 * b.size ≤ 1048576 → createChunks b = [b]) ∧
    (1048576 < 10 * b.size → createChunks b = [b]) ∧
    createChunks b = [b] :=
  ⟨fun _ => createChunks_eq b, fun _ => createChunks_eq b, createChunks_eq b⟩

/-- Witness for C9 at a small and a large blob. -/
theorem createChunks_returns_input_witness :
    (10 * (Blob.mk 1000 "audio/webm").size ≤ 1048576 ∧
      createChunks (Blob.mk 1000 "audio/webm") = [Blob.mk 1000 "audio/webm"]) ∧
    (1048576 < 10 * (Blob.mk 50000000 "audio/webm").size ∧
      createChunks (Blob.mk 50000000 "audio/webm") = [Blob.mk 50000000 "audio/webm"]) :=
  ⟨⟨by decide, (createChunks_returns_input (Blob.mk 1000 "audio/webm")).1 (by decide)⟩,
   ⟨by decide, (createChunks_returns_input (Blob.mk 50000000 "audio/webm")).2.1 (by decide)⟩⟩

/-- C10: if the recordings-list fetch fails — with a non-success HTTP status
or a thrown error — the resulting state differs from the prior state only in
the status message; in particular the cached recordings list is unchanged. -/
theorem fetchRecordings_error_frame (time : Recording → Int) (s : AppState) :
    (∀ m, fetchRecordings time (.jsError m) s =
      { s with status := "一覧取得に失敗: " ++ m }) ∧
    (∀ st, fetchRecordings time (.httpNotOk st) s =
      { s with
        status := "一覧取得に失敗: 一覧取得に失敗しました (status: " ++ toString st ++ ")" }) ∧
    (∀ m, (fetchRecordings time (.jsError m) s).recordings = s.recordings) ∧
    (∀ st, (fetchRecordings time (.httpNotOk st) s).recordings = s.recordings) :=
  ⟨fun _ => rfl, fun _ => rfl, fun _ => rfl, fun _ => rfl⟩

/-- C8: a tick whose status fetch fails (network or parse error) is
non-fatal: the generic failure message is set, the progress label is
cleared, the timer stays live, the stored interval handle and the
recordings are untouched, no effect is issued, and any number of
consecutive failing ticks still leaves the timer table unchanged — there is
no backoff state and no retry cap in the model because there is none in the
code. -/
theorem pollTick_fetch_error_nonfatal (parse : String → Option Json) (id : Nat)
    (arn : String) (s : AppState) (hmem : (id, arn) ∈ s.liveTimers) :
    pollTick parse id arn .fail s =
      ({ s with status := "ステータスの取得に失敗しました", processingStatus := none }, []) ∧
    (id, arn) ∈ (pollTick parse id arn .fail s).1.liveTimers ∧
    (pollTick parse id arn .fail s).1.pollingInterval = s.pollingInterval ∧
    (pollTick parse id arn .fail s).1.recordings = s.recordings ∧
    ∀ n, ((fun t => (pollTick parse id arn .fail t).1)^[n] s).liveTimers = s.liveTimers := by
  have hmain : pollTick parse id arn .fail s =
      ({ s with status := "ステータスの取得に失敗しました", processingStatus := none }, []) := by
    unfold pollTick
    rw [if_pos hmem]
    rfl
  refine ⟨hmain, ?_, by rw [hmain], by rw [hmain], ?_⟩
  · rw [hmain]; exact hmem
  · intro n
    induction n with
    | zero => rfl
    | succ n ih =>
      rw [Function.iterate_succ_apply']
      rw [pollTick_fail_liveTimers]
      exact ih

/-- Witness for C8 on a freshly started poll. -/
theorem pollTick_fetch_error_nonfatal_witness :
    pollTick parseNone 0 "E1" .fail (pollingOn "E1") =
      ({ pollingOn "E1" with
          status := "ステータスの取得に失敗しました", processingStatus := none }, []) ∧
    (0, "E1") ∈ (pollTick parseNone 0 "E1" .fail (pollingOn "E1")).1.liveTimers :=
  ⟨(pollTick_fetch_error_nonfatal parseNone 0 "E1" (pollingOn "E1") (by decide)).1,
   (pollTick_fetch_error_nonfatal parseNone 0 "E1" (pollingOn "E1") (by decide)).2.1⟩

/-- C1 counterexample: with a poll running for `E1` (timer 0), starting a new
recording session (`resetState`, as `startRecording` does) clears the
execution id but leaves timer 0 live, and a subsequent tick of `E1`'s timer
still updates state — here the progress label changes from `none` to the
polled message.  This refutes the claim that starting a new session halts
the prior execution's polling, so that no tick or state update from `E1` is
observed after the new session begins. -/
theorem C1_counterexample :
    (resetState (pollingOn "E1")).executionArn = none ∧
    (0, "E1") ∈ (resetState (pollingOn "E1")).liveTimers ∧
    (resetState (pollingOn "E1")).processingStatus = none ∧
    (pollTick parseNone 0 "E1" (.ok runningData)
        (resetState (pollingOn "E1"))).1.processingStatus = some "文字起こし中" := by
  refine ⟨rfl, by decide, rfl, ?_⟩
  decide

/-- C1 as amended: starting a new recording session clears the prior
execution id but leaves the prior poll timer live and the stored interval
handle unchanged; the prior execution's polling is halted only once the next
poll is started — storing the new interval handle clears the previous
timer — after which no tick of the old timer is ever observed (a tick of a
cleared timer leaves the state unchanged and issues no effect). -/
theorem newSession_halts_prior_polling_only_at_next_poll (s : AppState)
    (id : Nat) (e1 e2 : String) (parse : String → Option Json) (r : PollResp)
    (hpi : s.pollingInterval = some id) (hfresh : id ≠ s.nextTimer) :
    (resetState s).executionArn = none ∧
    (resetState s).liveTimers = s.liveTimers ∧
    (resetState s).pollingInterval = s.pollingInterval ∧
    (∀ a, (id, a) ∉ (startPolling e2 (resetState s)).liveTimers) ∧
    pollTick parse id e1 r (startPolling e2 (resetState s)) =
      (startPolling e2 (resetState s), []) := by
  have hmem : ∀ a, (id, a) ∉ (startPolling e2 (resetState s)).liveTimers := by
    intro a ha
    unfold startPolling setPollingIntervalM at ha
    rw [if_neg (by simp [resetState, hpi]; exact fun h => hfresh h.symm)] at ha
    simp only [resetState] at ha
    rw [hpi] at ha
    have := (List.mem_filter.mp ha).2
    simp at this
  refine ⟨rfl, rfl, rfl, hmem, ?_⟩
  unfold pollTick
  rw [if_neg (hmem e1)]

/-- Witness for the amended C1 on concrete states. -/
theorem newSession_halts_prior_polling_only_at_next_poll_witness :
    (resetState (pollingOn "E1")).executionArn = none ∧
    (resetState (pollingOn "E1")).liveTimers = (pollingOn "E1").liveTimers ∧
    (resetState (pollingOn "E1")).pollingInterval = (pollingOn "E1").pollingInterval ∧
    (∀ a, (0, a) ∉ (startPolling "E2" (resetState (pollingOn "E1"))).liveTimers) ∧
    pollTick parseNone 0 "E1" (.ok runningData)
        (startPolling "E2" (resetState (pollingOn "E1"))) =
      (startPolling "E2" (resetState (pollingOn "E1")), []) :=
  newSession_halts_prior_polling_only_at_next_poll (pollingOn "E1") 0 "E1" "E2"
    parseNone (.ok runningData) rfl (by decide)

/-- C7: a tick whose response has status `failed` stops the poll — the
timer is cleared, the stored handle and execution id are nulled — surfaces
the server-supplied error message (or the generic fallback when it is
absent) as the status, clears the progress label, and leaves the recordings
list untouched while issuing no effect, so no Recording Store refresh
occurs. -/
theorem pollTick_failed_stops_without_refresh (parse : String → Option Json)
    (id : Nat) (arn : String) (data : Json) (s : AppState)
    (hmem : (id, arn) ∈ s.liveTimers)
    (hst : jget data "status" = some (.str "failed")) :
    (pollTick parse id arn (.ok data) s).1.recordings = s.recordings ∧
    (pollTick parse id arn (.ok data) s).2 = [] ∧
    (pollTick parse id arn (.ok data) s).1.status =
      "処理に失敗しました: " ++ jsOr data "error" "不明なエラー" ∧
    (pollTick parse id arn (.ok data) s).1.processingStatus = none ∧
    (pollTick parse id arn (.ok data) s).1.executionArn = none ∧
    (pollTick parse id arn (.ok data) s).1.pollingInterval = none ∧
    (∀ a, (id, a) ∉ (pollTick parse id arn (.ok data) s).1.liveTimers) ∧
    (pollTick parse id arn (.ok data) s).1.title = s.title ∧
    (pollTick parse id arn (.ok data) s).1.isEditingBeforeSave = s.isEditingBeforeSave := by
  have hc : statusIs data "completed" = false := by simp [statusIs, hst]
  have hf : statusIs data "failed" = true := by simp [statusIs, hst]
  have hmain : pollTick parse id arn (.ok data) s =
      ({ { setPollingIntervalM none (clearIntervalM id s) with executionArn := none } with
          status := "処理に失敗しました: " ++ jsOr data "error" "不明なエラー"
          processingStatus := none }, []) := by
    simp only [pollTick, hmem, if_true, hc, hf]
    simp
  rw [hmain]
  refine ⟨by simp, rfl, rfl, rfl, rfl, by simp, ?_, by simp, by simp⟩
  intro a ha
  exact not_mem_after_clear none s id a ha

/-- Witness for C7: a failed response with no server message surfaces the
generic fallback and leaves the recordings of a freshly started poll
unchanged. -/
theorem pollTick_failed_stops_without_refresh_witness :
    (pollTick parseNone 0 "E1" (.ok failedData) (pollingOn "E1")).1.recordings =
      (pollingOn "E1").recordings ∧
    (pollTick parseNone 0 "E1" (.ok failedData) (pollingOn "E1")).2 = [] ∧
    (pollTick parseNone 0 "E1" (.ok failedData) (pollingOn "E1")).1.status =
      "処理に失敗しました: " ++ jsOr failedData "error" "不明なエラー" :=
  ⟨(pollTick_failed_stops_without_refresh parseNone 0 "E1" failedData
      (pollingOn "E1") (by decide) rfl).1,
   (pollTick_failed_stops_without_refresh parseNone 0 "E1" failedData
      (pollingOn "E1") (by decide) rfl).2.1,
   (pollTick_failed_stops_without_refresh parseNone 0 "E1" failedData
      (pollingOn "E1") (by decide) rfl).2.2.1⟩

/-- C2: on a completed tick whose result envelope `rd` carries a nested
string-encoded payload in its own `result` field, the callback decodes that
string and populates title, transcript, summary and keywords from the
decoded payload — not from the envelope; when decoding throws, the envelope
is used instead, so when the envelope carries none of the result fields they
all take their defaults (title `無題`, the others empty), and in both cases
the completion path still finishes: the state enters edit-before-save with
status `処理完了` and the recordings re-fetch is issued. -/
theorem pollTick_completed_decodes_nested (parse : String → Option Json)
    (id : Nat) (arn : String) (data rd : Json) (nested : String) (s : AppState)
    (hmem : (id, arn) ∈ s.liveTimers)
    (hst : jget data "status" = some (.str "completed"))
    (hres : jget data "result" = some rd)
    (htr : jsTruthy rd = true)
    (hnest : jget rd "result" = some (.str nested)) :
    (∀ p, parse nested = some p → p ≠ .null →
      (pollTick parse id arn (.ok data) s).1.title = jsOr p "title" "無題" ∧
      (pollTick parse id arn (.ok data) s).1.transcript = jsOr p "transcript" "" ∧
      (pollTick parse id arn (.ok data) s).1.summary = jsOr p "summary" "" ∧
      (pollTick parse id arn (.ok data) s).1.keywords = arrStrField p "keywords" ∧
      (pollTick parse id arn (.ok data) s).1.status = "処理完了" ∧
      (pollTick parse id arn (.ok data) s).1.isEditingBeforeSave = true ∧
      (pollTick parse id arn (.ok data) s).2 = [Effect.fetchRecordings]) ∧
    (parse nested = none →
      jget rd "title" = none → jget rd "transcript" = none →
      jget rd "summary" = none → jget rd "keywords" = none →
      (pollTick parse id arn (.ok data) s).1.title = "無題" ∧
      (pollTick parse id arn (.ok data) s).1.transcript = "" ∧
      (pollTick parse id arn (.ok data) s).1.summary = "" ∧
      (pollTick parse id arn (.ok data) s).1.keywords = [] ∧
      (pollTick parse id arn (.ok data) s).1.status = "処理完了" ∧
      (pollTick parse id arn (.ok data) s).1.isEditingBeforeSave = true ∧
      (pollTick parse id arn (.ok data) s).2 = [Effect.fetchRecordings]) := by
  have hcomp : statusIs data "completed" = true := by simp [statusIs, hst]
  constructor
  · intro p hp hnp
    rcases p with _ | b | n | t | xs | fields
    · exact absurd rfl hnp
    all_goals
      refine ⟨?_, ?_, ?_, ?_, ?_, ?_, ?_⟩ <;>
        simp [pollTick, hmem, hcomp, hres, htr, hnest, hp]
  · intro hp h1 h2 h3 h4
    rcases rd with _ | b | n | t | xs | fields
    · simp [jsTruthy] at htr
    · simp [jget] at hnest
    · simp [jget] at hnest
    · simp [jget] at hnest
    · simp [jget] at hnest
    · refine ⟨?_, ?_, ?_, ?_, ?_, ?_, ?_⟩ <;>
        simp [pollTick, hmem, hcomp, hres, htr, hnest, hp, jsOr, arrStrField, h1, h2, h3, h4]

/-- Witness for C2: the fields come from the decoded nested payload of
`completedNested`, not from its envelope. -/
theorem pollTick_completed_decodes_nested_witness :
    (pollTick parseEnv 0 "E1" (.ok completedNested) (pollingOn "E1")).1.title = "会議メモ" ∧
    (pollTick parseEnv 0 "E1" (.ok completedNested) (pollingOn "E1")).1.transcript = "本文です" ∧
    (pollTick parseEnv 0 "E1" (.ok completedNested) (pollingOn "E1")).1.summary = "要約です" ∧
    (pollTick parseEnv 0 "E1" (.ok completedNested) (pollingOn "E1")).1.keywords = ["会議"] ∧
    (pollTick parseEnv 0 "E1" (.ok completedNested) (pollingOn "E1")).2 =
      [Effect.fetchRecordings] := by
  have h := (pollTick_completed_decodes_nested parseEnv 0 "E1" completedNested
      (.obj [("result", .str "PAYLOAD")]) "PAYLOAD" (pollingOn "E1")
      (by decide) rfl rfl rfl rfl).1 nestedPayload rfl (by simp [nestedPayload])
  exact ⟨h.1.trans (by decide), h.2.1.trans (by decide), h.2.2.1.trans (by decide),
    h.2.2.2.1.trans (by decide), h.2.2.2.2.2.2⟩

/-- Helper: appending to the successful prefix trace elements whose index is
at least `k` keeps the trace duplicate-free. -/
theorem okTrace_append_nodup (k : Nat) (tail : List UploadEv)
    (htail : tail.Nodup) (hidx : ∀ e ∈ tail, k ≤ e.idx) :
    (okTrace 0 k ++ tail).Nodup := by
  rw [List.nodup_append]
  refine ⟨okTrace_nodup 0 k, htail, ?_⟩
  intro e he1 he2
  have h1 := okTrace_idx_lt 0 k e he1
  have h2 := hidx e he2
  omega

/-- C6: when every presign request and every PUT succeeds, `uploadChunks`
issues exactly one presign and one PUT per chunk, strictly sequentially in
input order (the trace is strictly ordered by `evRank`, so the PUT of chunk
i+1 is issued only after chunk i's PUT resolved), and returns exactly N
keys, the j-th being the key extracted from chunk j's presign response. -/
theorem uploadChunks_sequential_in_order (env : UploadEnv) (chunks : List Blob)
    (hgood : ∀ j, j < chunks.length → presignOk env j ∧ putOk env j) :
    uploadChunks env chunks =
      (okTrace 0 chunks.length, .ok (okKeys env 0 chunks.length)) ∧
    ((okTrace 0 chunks.length).filter UploadEv.isPut).length = chunks.length ∧
    (okTrace 0 chunks.length).Pairwise (fun a b => evRank a < evRank b) ∧
    (okKeys env 0 chunks.length).length = chunks.length ∧
    (∀ j, j < chunks.length →
      (okKeys env 0 chunks.length)[j]? = some (keyOf env j)) := by
  have hsplit := uploadFrom_split env chunks.length chunks 0 le_rfl (by
    intro j hj
    simpa using hgood j hj)
  rw [List.drop_length] at hsplit
  refine ⟨?_, okTrace_filter_isPut 0 chunks.length, okTrace_chain 0 chunks.length,
    okKeys_length env 0 chunks.length, ?_⟩
  · unfold uploadChunks
    rw [hsplit]
    simp [uploadFrom]
  · intro j hj
    simpa using okKeys_get env 0 chunks.length j hj

/-- Witness for C6 with two chunks in an all-success environment. -/
theorem uploadChunks_sequential_in_order_witness :
    uploadChunks envAllOk [blob0, blob0] =
      (okTrace 0 2, .ok (okKeys envAllOk 0 2)) ∧
    ((okTrace 0 2).filter UploadEv.isPut).length = 2 := by
  have h := uploadChunks_sequential_in_order envAllOk [blob0, blob0] (by
    intro j hj
    exact ⟨⟨goodPresign, rfl, rfl, rfl⟩, 200, rfl⟩)
  exact ⟨h.1, h.2.1⟩

/-- C3: if the presign request for chunk k fails with a non-success status,
or chunk k's PUT fails, `uploadChunks` throws at that point: no request for
any chunk after k is ever issued (every event in the trace has index at most
k), a presign failure for chunk k means chunk k's PUT is never issued, the
PUTs of chunks 0..k-1 were issued and no later request revokes them (the
trace ends at the failure; the model has no rollback request because the
code issues none), and no request is retried (the trace is
duplicate-free). -/
theorem uploadChunks_failure_aborts (env : UploadEnv) (chunks : List Blob)
    (k : Nat) (hk : k < chunks.length)
    (hgood : ∀ j, j < k → presignOk env j ∧ putOk env j) :
    (∀ st, env.presign k = .httpNotOk st →
      uploadChunks env chunks =
        (okTrace 0 k ++ [.presign k], .error (.presignRequest st)) ∧
      UploadEv.put k ∉ okTrace 0 k ++ [UploadEv.presign k] ∧
      (∀ e ∈ okTrace 0 k ++ [UploadEv.presign k], e.idx ≤ k) ∧
      (∀ j, j < k → UploadEv.put j ∈ okTrace 0 k) ∧
      (okTrace 0 k ++ [UploadEv.presign k]).Nodup) ∧
    (∀ d st, env.presign k = .ok d →
      optTruthy d.presignedUrl = true → optTruthy (deriveKey d) = true →
      env.put k = .resp false st →
      uploadChunks env chunks =
        (okTrace 0 k ++ [.presign k, .put k], .error (.chunkUpload k st)) ∧
      (∀ e ∈ okTrace 0 k ++ [UploadEv.presign k, UploadEv.put k], e.idx ≤ k) ∧
      (∀ j, j < k → UploadEv.put j ∈ okTrace 0 k) ∧
      (okTrace 0 k ++ [UploadEv.presign k, UploadEv.put k]).Nodup) := by
  have hsplit := uploadFrom_split env k chunks 0 (le_of_lt hk) (by
    intro j hj
    simpa using hgood j hj)
  have hdrop : chunks.drop k = chunks[k] :: chunks.drop (k + 1) :=
    List.drop_eq_getElem_cons hk
  constructor
  · intro st hfail
    have hmain : uploadChunks env chunks =
        (okTrace 0 k ++ [.presign k], .error (.presignRequest st)) := by
      unfold uploadChunks
      rw [hsplit, hdrop]
      simp [uploadFrom, hfail]
    refine ⟨hmain, ?_, ?_, ?_, ?_⟩
    · intro hin
      rcases List.mem_append.mp hin with h | h
      · have := okTrace_idx_lt 0 k _ h
        simp [UploadEv.idx] at this
      · simp at h
    · intro e he
      rcases List.mem_append.mp he with h | h
      · have := okTrace_idx_lt 0 k e h
        omega
      · simp at h
        subst h
        simp [UploadEv.idx]
    · intro j hj
      exact okTrace_put_mem 0 k j (Nat.zero_le j) (by omega)
    · refine okTrace_append_nodup k [.presign k] (by simp) ?_
      intro e he
      simp at he
      subst he
      simp [UploadEv.idx]
  · intro d st hok hurl hkey hput
    have hmain : uploadChunks env chunks =
        (okTrace 0 k ++ [.presign k, .put k], .error (.chunkUpload k st)) := by
      unfold uploadChunks
      rw [hsplit, hdrop]
      simp [uploadFrom, hok, hurl, hkey, hput]
    refine ⟨hmain, ?_, ?_, ?_⟩
    · intro e he
      rcases List.mem_append.mp he with h | h
      · have := okTrace_idx_lt 0 k e h
        omega
      · simp only [List.mem_cons, List.not_mem_nil, or_false] at h
        rcases h with rfl | rfl <;> simp [UploadEv.idx]
    · intro j hj
      exact okTrace_put_mem 0 k j (Nat.zero_le j) (by omega)
    · refine okTrace_append_nodup k [.presign k, .put k] (by simp) ?_
      intro e he
      simp only [List.mem_cons, List.not_mem_nil, or_false] at he
      rcases he with rfl | rfl <;> simp [UploadEv.idx]

/-- Witness for C3: presign fails for chunk 1 (of 3) with status 500 after
chunk 0 uploaded: the run stops right after chunk 1's presign and chunk 1's
PUT is never issued. -/
theorem uploadChunks_failure_aborts_witness :
    uploadChunks envFailAt1 [blob0, blob0, blob0] =
      (okTrace 0 1 ++ [.presign 1], .error (.presignRequest 500)) ∧
    UploadEv.put 1 ∉ okTrace 0 1 ++ [UploadEv.presign 1] := by
  have h := (uploadChunks_failure_aborts envFailAt1 [blob0, blob0, blob0] 1
      (by decide) (by
        intro j hj
        have hj0 : j = 0 := by omega
        subst hj0
        exact ⟨⟨goodPresign, rfl, rfl, rfl⟩, 200, rfl⟩)).1 500 rfl
  exact ⟨h.1, h.2.1⟩

/-- C4 counterexample: a presign response that carries a truthy presigned
URL but no key and no audio URL makes `uploadChunks` fail with the
presign-response error, even though one of the two (the URL) is present —
refuting the claim that this error occurs exactly when neither a presigned
URL nor a derivable key is present. -/
theorem C4_counterexample :
    optTruthy (PresignData.mk (some "https://bucket.s3.amazonaws.com/put-here")
        none none).presignedUrl = true ∧
    (uploadChunks envUrlOnly [blob0]).2 = .error .presignResponse :=
  ⟨rfl, rfl⟩

/-- C4 as amended: the uploader fails with the presign-response error
exactly when the presigned URL is falsy or no truthy key is present or
derivable — that is, when either of the two is missing, not only when both
are; and when the key field is falsy and an audio URL is truthy, the key is
derived as the trailing path segment of the audio URL. -/
theorem uploadChunks_presign_extraction (env : UploadEnv) (b : Blob)
    (d : PresignData) (hd : env.presign 0 = .ok d) :
    ((uploadChunks env [b]).2 = .error .presignResponse ↔
      ¬(optTruthy d.presignedUrl = true ∧ optTruthy (deriveKey d) = true)) ∧
    (optTruthy d.key = false → optTruthy d.audioUrl = true →
      deriveKey d = some (lastSeg (d.audioUrl.getD ""))) := by
  have hiff : (uploadChunks env [b]).2 = .error .presignResponse ↔
      ¬(optTruthy d.presignedUrl = true ∧ optTruthy (deriveKey d) = true) := by
    constructor
    · intro herr hab
      obtain ⟨ha, hb⟩ := hab
      cases hp : env.put 0 with
      | jsError m => simp [uploadChunks, uploadFrom, hd, ha, hb, hp] at herr
      | resp ok st =>
        cases ok
        · simp [uploadChunks, uploadFrom, hd, ha, hb, hp] at herr
        · simp [uploadChunks, uploadFrom, Except.map, hd, ha, hb, hp] at herr
    · intro hnab
      have hc : (optTruthy d.presignedUrl && optTruthy (deriveKey d)) = false := by
        cases h1 : optTruthy d.presignedUrl <;>
          cases h2 : optTruthy (deriveKey d) <;> simp_all
      simp [uploadChunks, uploadFrom, hd, hc]
  refine ⟨hiff, ?_⟩
  intro hk ha
  simp [deriveKey, hk, ha]

/-- Witness for C4: with a presigned URL and a key derivable from the audio
URL, the upload does not fail with the presign-response error, and the key
is the trailing path segment of the audio URL. -/
theorem uploadChunks_presign_extraction_witness :
    ¬(uploadChunks envAudioUrl [blob0]).2 = .error .presignResponse ∧
    deriveKey audioUrlData = some "rec_0.webm" := by
  have h := uploadChunks_presign_extraction envAudioUrl blob0 audioUrlData rfl
  constructor
  · intro herr
    exact (h.1.mp herr) ⟨rfl, rfl⟩
  · exact (h.2 rfl rfl).trans (by decide)

/-- Helper: `startPolling` stores the fresh interval handle and the fresh
timer is live, whatever was stored before. -/
theorem startPolling_state (arn : String) (s : AppState) :
    (startPolling arn s).pollingInterval = some s.nextTimer ∧
    (s.nextTimer, arn) ∈ (startPolling arn s).liveTimers := by
  unfold startPolling setPollingIntervalM
  dsimp only
  split
  · next h =>
    refine ⟨h.symm, ?_⟩
    simp
  · next h =>
    refine ⟨rfl, ?_⟩
    simp only
    cases hpi : s.pollingInterval with
    | none => simp
    | some j =>
      have hne : s.nextTimer ≠ j := by
        intro hEq
        exact h (by rw [hpi, hEq])
      rw [List.mem_filter]
      refine ⟨by simp, ?_⟩
      simpa using hne

@[simp] theorem startPolling_pollingInterval (arn : String) (s : AppState) :
    (startPolling arn s).pollingInterval = some s.nextTimer :=
  (startPolling_state arn s).1

@[simp] theorem startPolling_mem (arn : String) (s : AppState) :
    (s.nextTimer, arn) ∈ (startPolling arn s).liveTimers :=
  (startPolling_state arn s).2

@[simp] theorem startPolling_executionArn (arn : String) (s : AppState) :
    (startPolling arn s).executionArn = s.executionArn := by
  unfold startPolling
  simp

/-- C5: the workflow initiator dispatches on exactly three successful
response shapes — a truthy `executionArn` selects the asynchronous path
(control returns with `ok none` and polling begins: a fresh live timer for
that ARN is stored in the interval handle); otherwise a truthy `title`
selects the synchronous path (no timer is started, the fields are populated
from the response, the state enters edit-before-save and the recordings
re-fetch is issued); any other shape throws the unexpected-shape error — and
a non-success HTTP status throws the processing-start error carrying the
status and the server-supplied message (`Unknown error` when absent). -/
theorem processAudio_dispatch (env : UploadEnv) (b : Blob) (s : AppState)
    (hpre : presignOk env 0) (hput : putOk env 0) :
    (∀ body a, jget body "executionArn" = some (.str a) → a ≠ "" →
      (processAudio env (.ok body) b s).1.executionArn = some a ∧
      (∃ tid, (processAudio env (.ok body) b s).1.pollingInterval = some tid ∧
        (tid, a) ∈ (processAudio env (.ok body) b s).1.liveTimers) ∧
      (processAudio env (.ok body) b s).2.1 = [] ∧
      (processAudio env (.ok body) b s).2.2 = .ok none ∧
      (processAudio env (.ok body) b s).1.status = "" ∧
      (processAudio env (.ok body) b s).1.processingStatus = some "音声処理中...") ∧
    (∀ body t, jget body "executionArn" = none →
      jget body "title" = some (.str t) → t ≠ "" →
      (processAudio env (.ok body) b s).1.isEditingBeforeSave = true ∧
      (processAudio env (.ok body) b s).1.title = t ∧
      (processAudio env (.ok body) b s).1.transcript = jsOr body "transcript" "" ∧
      (processAudio env (.ok body) b s).1.summary = jsOr body "summary" "" ∧
      (processAudio env (.ok body) b s).1.keywords = arrStrField body "keywords" ∧
      (processAudio env (.ok body) b s).1.liveTimers = s.liveTimers ∧
      (processAudio env (.ok body) b s).1.pollingInterval = s.pollingInterval ∧
      (processAudio env (.ok body) b s).2.1 = [Effect.fetchRecordings] ∧
      (processAudio env (.ok body) b s).2.2 = .ok (some body)) ∧
    (∀ body, jget body "executionArn" = none → jget body "title" = none →
      (processAudio env (.ok body) b s).2.2 = .error "予期しないレスポンス形式です" ∧
      (processAudio env (.ok body) b s).1.status =
        "音声処理に失敗しました: " ++ "予期しないレスポンス形式です") ∧
    (∀ st body, (processAudio env (.httpNotOk st body) b s).2.2 =
        .error ("HTTP error! status: " ++ toString st ++ ", message: "
          ++ jsOr body "error" "Unknown error") ∧
      (processAudio env (.httpNotOk st body) b s).1.status =
        "音声処理に失敗しました: " ++ ("HTTP error! status: " ++ toString st ++ ", message: "
          ++ jsOr body "error" "Unknown error")) := by
  obtain ⟨d, hd, hurl, hkeyt⟩ := hpre
  obtain ⟨pst, hputp⟩ := hput
  have hup : (uploadChunks env (createChunks b)).2 = .ok [(deriveKey d).getD ""] := by
    rw [createChunks_eq]
    simp [uploadChunks, uploadFrom, Except.map, hd, hurl, hkeyt, hputp]
  refine ⟨?_, ?_, ?_, ?_⟩
  · intro body a hexec ha
    refine ⟨?_, ⟨s.nextTimer, ?_, ?_⟩, ?_, ?_, ?_, ?_⟩ <;>
      simp [processAudio, hup, hexec, ha]
  · intro body t hexec htitle ht
    have htv : jsTruthy (.str t) = true := by simp [jsTruthy, ht]
    refine ⟨?_, ?_, ?_, ?_, ?_, ?_, ?_, ?_, ?_⟩ <;>
      (cases hau : jget body "audioUrl" with
      | none =>
        simp [processAudio, syncOrFail, hup, hexec, htitle, htv, hau, jsOr, jsDisplay]
      | some v =>
        cases hv : jsTruthy v <;>
          simp [processAudio, syncOrFail, hup, hexec, htitle, htv, hau, hv, jsOr,
            jsDisplay])
  · intro body hexec htitle
    refine ⟨?_, ?_⟩ <;>
      simp [processAudio, syncOrFail, processCatch, hup, hexec, htitle]
  · intro st body
    refine ⟨?_, ?_⟩ <;>
      simp [processAudio, processCatch, hup]

/-- Witness for C5 on the asynchronous path: a response carrying an
execution ARN returns `ok none` and stores that ARN. -/
theorem processAudio_dispatch_witness :
    (processAudio envAllOk (.ok arnBody) blob0 initState).1.executionArn =
      some "arn:states:exec-42" ∧
    (processAudio envAllOk (.ok arnBody) blob0 initState).2.2 = .ok none := by
  have h := (processAudio_dispatch envAllOk blob0 initState
      ⟨goodPresign, rfl, rfl, rfl⟩ ⟨200, rfl⟩).1 arnBody "arn:states:exec-42"
      rfl (by decide)
  exact ⟨h.1, h.2.2.2.1⟩

end Koenote
